import Mathlib

/-!
Shallow embedding of `src/curveBoolean.js` (Fabric ↔ Paper.js adapter for
curve-preserving boolean operations) and proofs about its behaviour.

Coordinates are modelled as rationals (`ℚ`): every arithmetic operation the
source performs (addition, subtraction, multiplication by `2/3`, halving)
is exact over `ℚ`, so "within floating-point tolerance" statements become
exact statements here.

The geometry engine (Paper.js) is external to the repository.  Its data
model — paths made of segments carrying a point and two relative handle
vectors, plus a closed flag — is embedded directly, since the adapter reads
and writes that structure field by field.  Engine-internal algorithms
(`unite`, the `flatten` cleanup, the epsilon used by `Point#isZero`) are
modelled at their interface: `unite` is an abstract `combine` parameter that
may fail, `flatten(0)` is a structure-preserving cleanup, and the zero test
on handle vectors is exact.
-/

/-- A 2-D point (or vector) with rational coordinates. -/
structure Point where
  x : ℚ
  y : ℚ
deriving DecidableEq, Repr

instance : Zero Point := ⟨⟨0, 0⟩⟩

instance : Add Point := ⟨fun p q => ⟨p.x + q.x, p.y + q.y⟩⟩

instance : Sub Point := ⟨fun p q => ⟨p.x - q.x, p.y - q.y⟩⟩

/-- Scalar multiple of a point, `r * p` componentwise. -/
def Point.scale (r : ℚ) (p : Point) : Point := ⟨r * p.x, r * p.y⟩

/-- A 2-D affine transform `[a, b, c, d, tx, ty]` in Fabric's matrix layout:
`x' = a*x + c*y + tx`, `y' = b*x + d*y + ty`. -/
structure Affine where
  a : ℚ
  b : ℚ
  c : ℚ
  d : ℚ
  tx : ℚ
  ty : ℚ
deriving DecidableEq, Repr

/-- Apply an affine transform to a point. -/
def applyAffine (m : Affine) (p : Point) : Point :=
  ⟨m.a * p.x + m.c * p.y + m.tx, m.b * p.x + m.d * p.y + m.ty⟩

/-- The identity transform. -/
def Affine.identityM : Affine := ⟨1, 0, 0, 1, 0, 0⟩

@[simp] theorem applyAffine_identityM (p : Point) :
    applyAffine Affine.identityM p = p := by
  cases p with
  | mk x y => simp [applyAffine, Affine.identityM]

/-- One Fabric path command, the typed rendering of the arrays
`['M',x,y]`, `['L',x,y]`, `['C',x1,y1,x2,y2,x,y]`, `['Q',cx,cy,x,y]`,
`['Z']` that `curveBoolean.js` consumes and produces. -/
inductive PathCommand where
  | M (p : Point)
  | L (p : Point)
  | C (cp1 cp2 p : Point)
  | Q (c p : Point)
  | Z
deriving DecidableEq, Repr

/-- A Paper.js segment: an anchor point with relative `handleIn` /
`handleOut` vectors.  `new Segment(point)` has both handles zero;
`new Segment(point, handleIn)` has `handleOut` zero. -/
structure Segment where
  point : Point
  handleIn : Point
  handleOut : Point
deriving DecidableEq, Repr

/-- A Paper.js `Path`: an ordered segment list plus a `closed` flag. -/
structure PaperPath where
  segments : List Segment
  closed : Bool
deriving DecidableEq, Repr

/-- A Fabric object as `curveBoolean.js` inspects it: an optional path
command array, an optional polygon/polyline point list, rectangle data,
and the object's local-to-canvas transform.

`matrix` stands for `obj.calcTransformMatrix()`: Fabric computes it from
`left`/`top`/`scaleX`/`scaleY`/`angle`/origin, which is external library
code, so the object is modelled as carrying the resulting matrix. -/
structure FabricObj where
  type : String
  path : Option (List PathCommand)
  points : Option (List Point)
  width : ℚ
  height : ℚ
  originX : String
  originY : String
  matrix : Affine
deriving DecidableEq, Repr

/-- Model of `transformPointUsingCanvas` (src/curveBoolean.js:47): maps an
object-local point through `obj.calcTransformMatrix()` only — the canvas
argument is never used in the computation. -/
def transformPointUsingCanvas (obj : FabricObj) (p : Point) : Point :=
  applyAffine obj.matrix p

/-- Model of `prev.handleOut = new Point(cp1 - prev.point)` on the last segment of a
path (src/curveBoolean.js:90-93): if the list has a last segment, replace
its `handleOut` by `cp1 - prev.point`; otherwise leave the list unchanged. -/
def setLastHandleOut (segs : List Segment) (cp1 : Point) : List Segment :=
  match segs.getLast? with
  | none => segs
  | some prev => segs.dropLast ++ [{ prev with handleOut := cp1 - prev.point }]

/-- The cubic attachment step shared by the `C` branch and the tail of the
`Q` branch (src/curveBoolean.js:89-95 and 117-118): set the previous
segment's `handleOut` toward `cp1` (when a previous segment exists) and
append a new segment at `pt` with `handleIn = cp2 - pt`. -/
def attachCubic (p : PaperPath) (cp1 cp2 pt : Point) : PaperPath :=
  ⟨setLastHandleOut p.segments cp1 ++ [⟨pt, cp2 - pt, 0⟩], p.closed⟩

/-- One iteration of the command loop of `fabricPathToPaperPath`
(src/curveBoolean.js:72-123).  The source also assigns a `prevPoint`
variable in every branch, but that variable is never read, so it is not
modelled. -/
def importStep (obj : FabricObj) (p : PaperPath) : PathCommand → PaperPath
  | .M pt =>
      ⟨p.segments ++ [⟨transformPointUsingCanvas obj pt, 0, 0⟩], p.closed⟩
  | .L pt =>
      ⟨p.segments ++ [⟨transformPointUsingCanvas obj pt, 0, 0⟩], p.closed⟩
  | .C cp1 cp2 pt =>
      attachCubic p (transformPointUsingCanvas obj cp1)
        (transformPointUsingCanvas obj cp2) (transformPointUsingCanvas obj pt)
  | .Q c pt =>
      let cpt := transformPointUsingCanvas obj c
      let ptm := transformPointUsingCanvas obj pt
      match p.segments.getLast? with
      | none =>
          -- fallback to simple line (src/curveBoolean.js:104-109)
          ⟨p.segments ++ [⟨ptm, 0, 0⟩], p.closed⟩
      | some prev =>
          let cp1 : Point := prev.point + Point.scale (2 / 3) (cpt - prev.point)
          let cp2 : Point := ptm + Point.scale (2 / 3) (cpt - ptm)
          ⟨setLastHandleOut p.segments cp1 ++ [⟨ptm, cp2 - ptm, 0⟩], p.closed⟩
  | .Z => ⟨p.segments, true⟩

/-- The command loop of `fabricPathToPaperPath` run over a whole command
list, starting from the fresh open path `new Path()` of
src/curveBoolean.js:65-66. -/
def importCommands (obj : FabricObj) (cmds : List PathCommand) : PaperPath :=
  cmds.foldl (importStep obj) ⟨[], false⟩

/-- Modelled from the spec: `p.flatten(0)` (src/curveBoolean.js:125) is an
engine-side call whose implementation is not in this repository; the code
comment describes it as a "small cleanup: ensures segment structure is
consistent" and the spec's importer contract (§4.3) has no flattening step,
so it is modelled as the identity on the curve's segment structure. -/
def flattenCleanup (p : PaperPath) : PaperPath := p

/-- Model of `fabricPathToPaperPath` (src/curveBoolean.js:60-127): returns `null`
when `obj.path` is absent / not an array, otherwise folds the command list
into one engine path and applies the cleanup. -/
def fabricPathToPaperPath (obj : FabricObj) : Option PaperPath :=
  match obj.path with
  | none => none
  | some cmds => some (flattenCleanup (importCommands obj cmds))

/-- One pair emission of `paperPathToFabricPath` (src/curveBoolean.js:
158-174): a `C` command from the adjoining handles when either is nonzero,
otherwise an `L`.  Paper's `Point#isZero` is modelled as the exact zero
test. -/
def emitPair (prev cur : Segment) : PathCommand :=
  if prev.handleOut ≠ (0 : Point) ∨ cur.handleIn ≠ (0 : Point) then
    .C (prev.point + prev.handleOut) (cur.point + cur.handleIn) cur.point
  else
    .L cur.point

/-- The `for (let i = 1; i < segments.length; i++)` pair loop of
src/curveBoolean.js:158-174, walking consecutive segment pairs. -/
def emitSegs : Segment → List Segment → List PathCommand
  | _, [] => []
  | prev, cur :: rest => emitPair prev cur :: emitSegs cur rest

/-- Per-item emission of `paperPathToFabricPath` (src/curveBoolean.js:
150-177): skip empty segment lists, otherwise emit `M` at the first
anchor, the consecutive-pair commands, and `Z` when the item is closed. -/
def emitItem (item : PaperPath) : List PathCommand :=
  match item.segments with
  | [] => []
  | s0 :: rest =>
      .M s0.point :: (emitSegs s0 rest ++ if item.closed then [.Z] else [])

/-- The `items.forEach` accumulation into `combinedPathData`
(src/curveBoolean.js:148-177). -/
def emitItems : List PaperPath → List PathCommand
  | [] => []
  | it :: rest => emitItem it ++ emitItems rest

/-- The shape of the value handed to `paperPathToFabricPath`: a single
Paper `Path`, or a `CompoundPath` / `Group` with children. -/
inductive PaperItemTree where
  | path (p : PaperPath)
  | compound (children : List PaperItemTree)

/-- The `child instanceof paper.Path` filter (src/curveBoolean.js:135-143). -/
def pathChild : PaperItemTree → Option PaperPath
  | .path p => some p
  | .compound _ => none

/-- Normalization to an array of `paper.Path` items
(src/curveBoolean.js:131-144): a single path becomes `[p]`; a compound
path or group contributes its direct children that are paths. -/
def collectItems : PaperItemTree → List PaperPath
  | .path p => [p]
  | .compound cs => cs.filterMap pathChild

/-- The coordinate pairs scanned by the bounding-box pass
(src/curveBoolean.js:183-195): each command contributes the `(x, y)` pairs
sitting in its argument list; `Z` contributes none. -/
def cmdCoords : PathCommand → List Point
  | .M p => [p]
  | .L p => [p]
  | .C cp1 cp2 p => [cp1, cp2, p]
  | .Q c p => [c, p]
  | .Z => []

/-- All coordinate pairs of a command list, in scan order. -/
def coordPairs : List PathCommand → List Point
  | [] => []
  | cmd :: rest => cmdCoords cmd ++ coordPairs rest

/-- Bounding box `{minX, minY, maxX, maxY}`. -/
structure BBox where
  minX : ℚ
  minY : ℚ
  maxX : ℚ
  maxY : ℚ
deriving DecidableEq, Repr

/-- The bounding-box computation of src/curveBoolean.js:182-199: fold
`min`/`max` over every coordinate pair; when no pair exists the
`isFinite` patches collapse the `Infinity` sentinels to the degenerate box
at the origin (`minX = 0`, `minY = 0`, `maxX = minX`, `maxY = minY`). -/
def bboxOf (cmds : List PathCommand) : BBox :=
  match coordPairs cmds with
  | [] => ⟨0, 0, 0, 0⟩
  | p :: ps =>
      ⟨ps.foldl (fun m q => min m q.x) p.x,
       ps.foldl (fun m q => min m q.y) p.y,
       ps.foldl (fun m q => max m q.x) p.x,
       ps.foldl (fun m q => max m q.y) p.y⟩

/-- Recentering of one command (src/curveBoolean.js:206-220): `Z` passes
through unchanged, every coordinate pair has the center subtracted. -/
def shiftCmd (c : Point) : PathCommand → PathCommand
  | .M p => .M (p - c)
  | .L p => .L (p - c)
  | .C cp1 cp2 p => .C (cp1 - c) (cp2 - c) (p - c)
  | .Q q p => .Q (q - c) (p - c)
  | .Z => .Z

/-- Model of `paperPathToFabricPath` (src/curveBoolean.js:129-233): normalize to
path items, emit commands, return `null` when no items or no commands,
otherwise recenter around the bounding-box center and return the local
commands with the offset `(cx, cy)`.  The construction of the
`fabric.Path` object itself is external library code; the model returns
the local path data it is built from together with the offset. -/
def paperPathToFabricPath (t : PaperItemTree) : Option (List PathCommand × ℚ × ℚ) :=
  let items := collectItems t
  if items.isEmpty then none
  else
    let combined := emitItems items
    if combined.isEmpty then none
    else
      let bb := bboxOf combined
      let cx := (bb.minX + bb.maxX) / 2
      let cy := (bb.minY + bb.maxY) / 2
      some (combined.map (shiftCmd ⟨cx, cy⟩), cx, cy)

/-- The per-object normalization inside the union loop
(src/curveBoolean.js:255-302).  `Except.error` models a thrown JavaScript
`TypeError`; `Except.ok none` models the `continue` on unsupported object
types; `Except.ok (some src)` is the path-like object handed to the
importer.  For an object with an empty `points` array the guard
`obj.points && Array.isArray(obj.points)` passes (an empty array is
truthy), and `obj.points[0].x` then reads property `x` of `undefined`,
which throws.  Fabric's construction of the replacement `fabric.Path`
from the copied placement options is external; it is modelled as
producing an object with the new path data and the same local-to-canvas
transform. -/
def normalizeSource (obj : FabricObj) : Except String (Option FabricObj) :=
  match obj.path with
  | some _ => .ok (some obj)
  | none =>
    match obj.points with
    | some pts =>
      match pts with
      | [] => .error "TypeError: cannot read x of undefined"
      | p0 :: rest =>
          let pathData := .M p0 :: rest.map .L ++
            (if obj.type = "polygon" then [.Z] else [])
          .ok (some { obj with type := "path", path := some pathData, points := none })
    | none =>
      if obj.type = "rect" ∨ (obj.width ≠ 0 ∧ obj.height ≠ 0) then
        let w := obj.width
        let h := obj.height
        let ox := if obj.originX = "center" then w / 2
                  else if obj.originX = "right" then w else 0
        let oy := if obj.originY = "center" then h / 2
                  else if obj.originY = "bottom" then h else 0
        let pathData : List PathCommand :=
          [.M ⟨-ox, -oy⟩, .L ⟨w - ox, -oy⟩, .L ⟨w - ox, h - oy⟩,
           .L ⟨-ox, h - oy⟩, .Z]
        .ok (some { obj with type := "path", path := some pathData, points := none })
      else
        .ok none

/-- The fold loop of `doCurveBooleanUnion` (src/curveBoolean.js:251-318)
over the selected objects, with the engine's `unite` as the abstract
`combine` capability (`none` models a thrown engine error).  A combine
failure is caught (`catch` at line 314): the error is logged and the loop
continues with the previous accumulator. -/
def unionLoop (combine : PaperPath → PaperPath → Option PaperPath) :
    List FabricObj → Option PaperPath → Except String (Option PaperPath)
  | [], acc => .ok acc
  | obj :: rest, acc =>
    match normalizeSource obj with
    | .error e => .error e
    | .ok none => unionLoop combine rest acc
    | .ok (some src) =>
      match fabricPathToPaperPath src with
      | none => unionLoop combine rest acc
      | some p =>
        match acc with
        | none => unionLoop combine rest (some p)
        | some r =>
          match combine r p with
          | some united => unionLoop combine rest (some united)
          | none => unionLoop combine rest (some r)

/-- Model of `doCurveBooleanUnion` up to its geometric result
(src/curveBoolean.js:235-320): the `selected.length < 2` guard returns
`null`; otherwise the normalize/import/combine fold runs and yields the
accumulated engine curve (`none` when nothing was usable).  The preview
overlay, user confirmation and canvas mutation that follow are DOM/UI
code outside this model. -/
def doCurveBooleanUnionCore (combine : PaperPath → PaperPath → Option PaperPath)
    (selected : List FabricObj) : Except String (Option PaperPath) :=
  if selected.length < 2 then .ok none
  else unionLoop combine selected none

/-! ## Basic component lemmas -/

@[simp] theorem Point.add_def (p q : Point) : p + q = ⟨p.x + q.x, p.y + q.y⟩ := rfl

@[simp] theorem Point.sub_def (p q : Point) : p - q = ⟨p.x - q.x, p.y - q.y⟩ := rfl

@[simp] theorem Point.zero_def : (0 : Point) = ⟨0, 0⟩ := rfl

theorem Point.add_sub_cancel (p q : Point) : p + (q - p) = q := by
  cases p with
  | mk a b => cases q with
    | mk c d => simp

theorem Point.sub_eq_zero_iff (p q : Point) : p - q = 0 ↔ p = q := by
  cases p with
  | mk a b => cases q with
    | mk c d => simp [Point.mk.injEq, sub_eq_zero]

/-- A path-like Fabric object with the given command list and the identity
local-to-canvas transform. -/
def mkPathObj (cmds : List PathCommand) : FabricObj :=
  ⟨"path", some cmds, none, 0, 0, "left", "top", Affine.identityM⟩

theorem transformPointUsingCanvas_identityM (obj : FabricObj)
    (hm : obj.matrix = Affine.identityM) (p : Point) :
    transformPointUsingCanvas obj p = p := by
  simp [transformPointUsingCanvas, hm]

/-! ## Claim C3: MoveTo and subpath boundaries in the importer -/

/-- Number of `M` commands in a command list — the number of exported
subpath starts, since every emitted subpath begins with `M`. -/
def countM : List PathCommand → Nat
  | [] => 0
  | .M _ :: rest => countM rest + 1
  | _ :: rest => countM rest

/-- Claim C3 (amended): the importer treats every `MoveTo` exactly like a
`LineTo` — replacing a mid-path `M` by an `L` with the same coordinates
leaves the imported curve unchanged, so a `MoveTo` after the first never
starts a new subpath and subpath boundaries are not preserved. -/
theorem c3_amended (obj : FabricObj) (l1 l2 : List PathCommand) (p : Point) :
    importCommands obj (l1 ++ .M p :: l2) = importCommands obj (l1 ++ .L p :: l2) := by
  unfold importCommands
  rw [List.foldl_append, List.foldl_append, List.foldl_cons, List.foldl_cons]
  rfl

/-- Claim C3 (counterexample): importing a two-subpath command list
`[M(0,0), L(1,0), M(5,5), L(6,5)]` yields a single path whose exported
command list `[M(0,0), L(1,0), L(5,5), L(6,5)]` has one subpath start, not
two — the second `MoveTo` does not begin a distinct subpath. -/
theorem c3_counterexample :
    emitItem (importCommands (mkPathObj [.M ⟨0,0⟩, .L ⟨1,0⟩, .M ⟨5,5⟩, .L ⟨6,5⟩])
        [.M ⟨0,0⟩, .L ⟨1,0⟩, .M ⟨5,5⟩, .L ⟨6,5⟩]) =
      [.M ⟨0,0⟩, .L ⟨1,0⟩, .L ⟨5,5⟩, .L ⟨6,5⟩] ∧
    countM [(.M ⟨0,0⟩ : PathCommand), .L ⟨1,0⟩, .M ⟨5,5⟩, .L ⟨6,5⟩] = 2 ∧
    countM [(.M ⟨0,0⟩ : PathCommand), .L ⟨1,0⟩, .L ⟨5,5⟩, .L ⟨6,5⟩] = 1 := by
  refine ⟨?_, rfl, rfl⟩
  norm_num [importCommands, importStep, mkPathObj, transformPointUsingCanvas,
    applyAffine, Affine.identityM, emitItem, emitSegs, emitPair]

/-! ## Claim C4: empty command sequences in the importer -/

/-- Claim C4 (amended): `fabricPathToPaperPath` returns `null` exactly when
the object has no path array at all; a present-but-empty command sequence
is not caught by the `!obj.path` guard (an empty array is truthy). -/
theorem c4_amended (obj : FabricObj) :
    fabricPathToPaperPath obj = none ↔ obj.path = none := by
  cases h : obj.path <;> simp [fabricPathToPaperPath, h]

/-- Claim C4 (counterexample): a shape with an empty command sequence is
imported as an empty engine curve (`segments = []`), not as `null`. -/
theorem c4_counterexample :
    fabricPathToPaperPath (mkPathObj []) = some ⟨[], false⟩ ∧
    fabricPathToPaperPath (mkPathObj []) ≠ none :=
  ⟨rfl, fun h => Option.noConfusion h⟩

/-! ## Claim C5: curve commands with no established previous anchor -/

/-- Claim C5 (amended): on a path with no previous anchor, a `CubicTo` does
not fail, but it is not degraded to a plain `LineTo` either: only the
`handleOut` attachment is skipped and the appended anchor still carries
`handleIn = mappedCp2 - mappedEnd`.  It is the quadratic command that
degrades to a plain line (an anchor with zero handles). -/
theorem c5_amended (obj : FabricObj) (cl : Bool) (cp1 cp2 pt c q : Point) :
    importStep obj ⟨[], cl⟩ (.C cp1 cp2 pt) =
      ⟨[⟨transformPointUsingCanvas obj pt,
         transformPointUsingCanvas obj cp2 - transformPointUsingCanvas obj pt, 0⟩], cl⟩ ∧
    importStep obj ⟨[], cl⟩ (.Q c q) =
      ⟨[⟨transformPointUsingCanvas obj q, 0, 0⟩], cl⟩ := by
  constructor <;> rfl

/-- Claim C5 (counterexample): importing the malformed path
`[C (0,0) (2,2) (3,3)]` (a cubic with no previous anchor) produces an
anchor whose `handleIn` is `(-1,-1)`, not the zero-handle anchor a plain
`LineTo` would produce. -/
theorem c5_counterexample :
    fabricPathToPaperPath (mkPathObj [.C ⟨0,0⟩ ⟨2,2⟩ ⟨3,3⟩]) =
      some ⟨[⟨⟨3,3⟩, ⟨-1,-1⟩, 0⟩], false⟩ ∧
    (⟨-1,-1⟩ : Point) ≠ (0 : Point) := by
  constructor
  · norm_num [fabricPathToPaperPath, flattenCleanup, importCommands, importStep,
      mkPathObj, transformPointUsingCanvas, applyAffine, Affine.identityM,
      attachCubic, setLastHandleOut]
  · simp

/-! ## Claim C9: union over fewer than two inputs -/

/-- Claim C9 (amended): the guard `selected.length < 2` makes the union a
no-op returning `null` for both the empty and the single-element
selection; the sole element of a singleton selection is not returned, and
no combine call is made. -/
theorem c9_amended (combine : PaperPath → PaperPath → Option PaperPath)
    (objs : List FabricObj) (h : objs.length < 2) :
    doCurveBooleanUnionCore combine objs = .ok none := by
  simp [doCurveBooleanUnionCore, h]

/-- An axis-aligned square path object at `(0,0)-(4,4)`. -/
def sqA : FabricObj := mkPathObj [.M ⟨0,0⟩, .L ⟨4,0⟩, .L ⟨4,4⟩, .L ⟨0,4⟩, .Z]

/-- A second square path object at `(2,2)-(6,6)`. -/
def sqB : FabricObj := mkPathObj [.M ⟨2,2⟩, .L ⟨6,2⟩, .L ⟨6,6⟩, .L ⟨2,6⟩, .Z]

/-- The engine curve `sqA` imports to. -/
def sqACurve : PaperPath :=
  ⟨[⟨⟨0,0⟩, 0, 0⟩, ⟨⟨4,0⟩, 0, 0⟩, ⟨⟨4,4⟩, 0, 0⟩, ⟨⟨0,4⟩, 0, 0⟩], true⟩

/-- Claim C9 (counterexample): a single-element selection holding the
square `sqA` imports to a real curve, yet the union returns `null`, not
that sole element. -/
theorem c9_counterexample :
    doCurveBooleanUnionCore (fun _ _ => none) [sqA] = .ok none ∧
    fabricPathToPaperPath sqA = some sqACurve ∧
    some sqACurve ≠ (none : Option PaperPath) := by
  refine ⟨rfl, ?_, fun h => Option.noConfusion h⟩
  norm_num [fabricPathToPaperPath, flattenCleanup, importCommands, importStep,
    mkPathObj, sqA, sqACurve, transformPointUsingCanvas, applyAffine,
    Affine.identityM]

/-- Claim C9 (witness): instantiating the amended theorem at the
single-element selection `[sqA]`. -/
theorem c9_witness :
    doCurveBooleanUnionCore (fun _ _ => none) [sqA] = .ok none :=
  c9_amended (fun _ _ => none) [sqA] (by simp)

/-! ## Claim C10: empty point lists in the point-list conversion -/

/-- The union loop throws as soon as an object with no path and an empty
`points` array is in the selection: the point-list conversion reads
`obj.points[0].x` and no branch catches the resulting `TypeError`. -/
theorem unionLoop_error_of_mem (combine : PaperPath → PaperPath → Option PaperPath)
    (bad : FabricObj) (hpath : bad.path = none) (hpts : bad.points = some []) :
    ∀ (objs : List FabricObj) (acc : Option PaperPath), bad ∈ objs →
      ∃ e, unionLoop combine objs acc = .error e := by
  intro objs
  induction objs with
  | nil => intro acc h; cases h
  | cons obj rest ih =>
    intro acc hmem
    by_cases hob : obj = bad
    · subst hob
      have hn : normalizeSource obj = .error "TypeError: cannot read x of undefined" := by
        simp [normalizeSource, hpath, hpts]
      exact ⟨"TypeError: cannot read x of undefined", by simp [unionLoop, hn]⟩
    · have hrest : bad ∈ rest := by
        rcases List.mem_cons.mp hmem with h | h
        · exact absurd h.symm hob
        · exact h
      cases hn : normalizeSource obj with
      | error e => exact ⟨e, by simp [unionLoop, hn]⟩
      | ok o =>
        cases o with
        | none =>
          have hred : unionLoop combine (obj :: rest) acc = unionLoop combine rest acc := by
            simp [unionLoop, hn]
          rw [hred]
          exact ih acc hrest
        | some src =>
          cases hi : fabricPathToPaperPath src with
          | none =>
            have hred : unionLoop combine (obj :: rest) acc = unionLoop combine rest acc := by
              simp [unionLoop, hn, hi]
            rw [hred]
            exact ih acc hrest
          | some p =>
            cases acc with
            | none =>
              have hred : unionLoop combine (obj :: rest) none = unionLoop combine rest (some p) := by
                simp [unionLoop, hn, hi]
              rw [hred]
              exact ih (some p) hrest
            | some r =>
              cases hc : combine r p with
              | some united =>
                have hred : unionLoop combine (obj :: rest) (some r) =
                    unionLoop combine rest (some united) := by
                  simp [unionLoop, hn, hi, hc]
                rw [hred]
                exact ih (some united) hrest
              | none =>
                have hred : unionLoop combine (obj :: rest) (some r) =
                    unionLoop combine rest (some r) := by
                  simp [unionLoop, hn, hi, hc]
                rw [hred]
                exact ih (some r) hrest

/-- Claim C10: if a selection of at least two objects contains an object
with no path but an empty points array, `doCurveBooleanUnion` throws (the
conversion reads `points[0].x` on the empty array) instead of skipping the
object or returning `null`. -/
theorem c10_theorem (combine : PaperPath → PaperPath → Option PaperPath)
    (objs : List FabricObj) (bad : FabricObj) (hmem : bad ∈ objs)
    (hlen : 2 ≤ objs.length) (hpath : bad.path = none)
    (hpts : bad.points = some []) :
    ∃ e, doCurveBooleanUnionCore combine objs = .error e := by
  have hguard : ¬ objs.length < 2 := by omega
  unfold doCurveBooleanUnionCore
  rw [if_neg hguard]
  exact unionLoop_error_of_mem combine bad hpath hpts objs none hmem

/-- An object with no path and an empty points array. -/
def badObj : FabricObj := ⟨"polygon", none, some [], 0, 0, "left", "top", Affine.identityM⟩

/-- Claim C10 (witness): the union over `[sqA, badObj]` throws. -/
theorem c10_witness :
    ∃ e, doCurveBooleanUnionCore (fun _ _ => none) [sqA, badObj] = .error e :=
  c10_theorem (fun _ _ => none) [sqA, badObj] badObj (by simp) (by simp) rfl rfl

/-! ## Claim C1: combine failure during the union fold -/

/-- Claim C1 (amended): when the delegated combine capability fails for a
pair, the `catch` block only logs the error — the fold does not abort and
no failure reaches the caller: the loop continues with the previous
accumulator unchanged (the failing pair's freshly imported curve is
dropped), so the accumulated partial result can end up being returned as
the union result. -/
theorem c1_amended (combine : PaperPath → PaperPath → Option PaperPath)
    (obj src : FabricObj) (rest : List FabricObj) (r p : PaperPath)
    (hn : normalizeSource obj = .ok (some src))
    (hi : fabricPathToPaperPath src = some p)
    (hc : combine r p = none) :
    unionLoop combine (obj :: rest) (some r) = unionLoop combine rest (some r) := by
  simp [unionLoop, hn, hi, hc]

/-- Claim C1 (counterexample): with a combine capability that fails on
every pair, the union over the two squares `[sqA, sqB]` neither aborts nor
surfaces a failure — it returns the partial accumulator, namely the curve
of `sqA` alone. -/
theorem c1_counterexample :
    doCurveBooleanUnionCore (fun _ _ => none) [sqA, sqB] = .ok (some sqACurve) := by
  norm_num [doCurveBooleanUnionCore, unionLoop, normalizeSource,
    fabricPathToPaperPath, flattenCleanup, importCommands, importStep,
    mkPathObj, sqA, sqB, sqACurve, transformPointUsingCanvas, applyAffine,
    Affine.identityM]

/-- The engine curve `sqB` imports to. -/
def sqBCurve : PaperPath :=
  ⟨[⟨⟨2,2⟩, 0, 0⟩, ⟨⟨6,2⟩, 0, 0⟩, ⟨⟨6,6⟩, 0, 0⟩, ⟨⟨2,6⟩, 0, 0⟩], true⟩

/-- Claim C1 (witness): instantiating the amended theorem at the failing
combine and the concrete pair `(sqACurve, sqB)`. -/
theorem c1_witness :
    unionLoop (fun _ _ => none) [sqB] (some sqACurve) =
      unionLoop (fun _ _ => none) [] (some sqACurve) := by
  have hi : fabricPathToPaperPath sqB = some sqBCurve := by
    norm_num [fabricPathToPaperPath, flattenCleanup, importCommands,
      importStep, mkPathObj, sqB, sqBCurve, transformPointUsingCanvas,
      applyAffine, Affine.identityM]
  exact c1_amended (fun _ _ => none) sqB sqB [] sqACurve sqBCurve rfl hi rfl

/-! ## Claim C6: exact quadratic-to-cubic elevation -/

/-- Claim C6: a quadratic command met with an established previous anchor
`p0` is elevated exactly: the importer computes
`cp1 = p0 + (2/3)(q - p0)` and `cp2 = p1 + (2/3)(q - p1)` (with `q`, `p1`
the mapped control and end points) and then performs precisely the cubic
attachment step (`attachCubic`, the body of the `CubicTo` case) with those
derived points. -/
theorem c6_theorem (obj : FabricObj) (p : PaperPath) (prev : Segment)
    (h : p.segments.getLast? = some prev) (c pt : Point) :
    importStep obj p (.Q c pt) =
      attachCubic p
        (prev.point + Point.scale (2/3) (transformPointUsingCanvas obj c - prev.point))
        (transformPointUsingCanvas obj pt +
          Point.scale (2/3)
            (transformPointUsingCanvas obj c - transformPointUsingCanvas obj pt))
        (transformPointUsingCanvas obj pt) := by
  simp only [importStep, attachCubic, h]

/-- Claim C6 (witness): the elevation theorem at a concrete one-anchor
path and quadratic command. -/
theorem c6_witness :
    importStep (mkPathObj []) ⟨[⟨⟨0,0⟩, 0, 0⟩], false⟩ (.Q ⟨3,0⟩ ⟨3,3⟩) =
      attachCubic ⟨[⟨⟨0,0⟩, 0, 0⟩], false⟩
        (⟨0,0⟩ + Point.scale (2/3) (transformPointUsingCanvas (mkPathObj []) ⟨3,0⟩ - ⟨0,0⟩))
        (transformPointUsingCanvas (mkPathObj []) ⟨3,3⟩ +
          Point.scale (2/3)
            (transformPointUsingCanvas (mkPathObj []) ⟨3,0⟩ -
              transformPointUsingCanvas (mkPathObj []) ⟨3,3⟩))
        (transformPointUsingCanvas (mkPathObj []) ⟨3,3⟩) :=
  c6_theorem (mkPathObj []) ⟨[⟨⟨0,0⟩, 0, 0⟩], false⟩ ⟨⟨0,0⟩, 0, 0⟩ rfl ⟨3,0⟩ ⟨3,3⟩

/-! ## Claim C7: exporter emission shape -/

/-- The spec's per-pair emission rule (§4.5 step 2): `LineTo` exactly when
both adjoining handles are the zero vector, otherwise `CubicTo` with
control points `prev.point + prev.handleOut` and `cur.point + cur.handleIn`. -/
def emitPairSpec (pc : Segment × Segment) : PathCommand :=
  if pc.1.handleOut = (0 : Point) ∧ pc.2.handleIn = (0 : Point) then
    .L pc.2.point
  else
    .C (pc.1.point + pc.1.handleOut) (pc.2.point + pc.2.handleIn) pc.2.point

theorem emitPair_eq_spec (prev cur : Segment) :
    emitPair prev cur = emitPairSpec (prev, cur) := by
  unfold emitPair emitPairSpec
  by_cases h1 : prev.handleOut = (0 : Point) <;>
    by_cases h2 : cur.handleIn = (0 : Point) <;>
      simp only [Point.zero_def] at h1 h2 <;> simp [h1, h2]

theorem emitSegs_eq_zip (s : Segment) (rest : List Segment) :
    emitSegs s rest = ((s :: rest).zip rest).map emitPairSpec := by
  induction rest generalizing s with
  | nil => rfl
  | cons cur rs ih =>
    simp [emitSegs, List.zip_cons_cons, emitPair_eq_spec, ih]

/-- Claim C7: for every nonempty subpath the exporter emits `MoveTo` at
the first anchor's point, then one command per consecutive anchor pair —
`LineTo(cur.point)` exactly when `prev.handleOut` and `cur.handleIn` are
both the zero vector, otherwise `CubicTo(prev.point + prev.handleOut,
cur.point + cur.handleIn, cur.point)` — and a final `ClosePath` iff the
subpath is closed. -/
theorem c7_theorem (item : PaperPath) (s0 : Segment) (rest : List Segment)
    (h : item.segments = s0 :: rest) :
    emitItem item =
      .M s0.point ::
        (((s0 :: rest).zip rest).map emitPairSpec ++
          if item.closed then [.Z] else []) := by
  simp only [emitItem, h]
  rw [emitSegs_eq_zip]

/-- Claim C7 (witness): the emission theorem at a concrete closed
three-anchor subpath with one curved pair and one straight pair. -/
theorem c7_witness :
    emitItem ⟨[⟨⟨0,0⟩, 0, ⟨1,1⟩⟩, ⟨⟨2,0⟩, 0, 0⟩, ⟨⟨3,3⟩, 0, 0⟩], true⟩ =
      .M ⟨0,0⟩ ::
        ((([⟨⟨0,0⟩, 0, ⟨1,1⟩⟩, ⟨⟨2,0⟩, 0, 0⟩, ⟨⟨3,3⟩, 0, 0⟩] :
            List Segment).zip [⟨⟨2,0⟩, 0, 0⟩, ⟨⟨3,3⟩, 0, 0⟩]).map emitPairSpec ++
          if (⟨[⟨⟨0,0⟩, 0, ⟨1,1⟩⟩, ⟨⟨2,0⟩, 0, 0⟩, ⟨⟨3,3⟩, 0, 0⟩], true⟩ :
              PaperPath).closed then [.Z] else []) :=
  c7_theorem ⟨[⟨⟨0,0⟩, 0, ⟨1,1⟩⟩, ⟨⟨2,0⟩, 0, 0⟩, ⟨⟨3,3⟩, 0, 0⟩], true⟩
    ⟨⟨0,0⟩, 0, ⟨1,1⟩⟩ [⟨⟨2,0⟩, 0, 0⟩, ⟨⟨3,3⟩, 0, 0⟩] rfl

/-! ## Claim C8: centroid recentering in the exporter -/

theorem foldl_minx_shift (ps : List Point) (a : ℚ) (c : Point) :
    (ps.map (fun q => q - c)).foldl (fun m q => min m q.x) (a - c.x)
      = ps.foldl (fun m q => min m q.x) a - c.x := by
  induction ps generalizing a with
  | nil => rfl
  | cons q l ih =>
    simp only [List.map_cons, List.foldl_cons, Point.sub_def]
    rw [show min (a - c.x) (q.x - c.x) = min a q.x - c.x from min_sub_sub_right a q.x c.x]
    exact ih _

theorem foldl_miny_shift (ps : List Point) (a : ℚ) (c : Point) :
    (ps.map (fun q => q - c)).foldl (fun m q => min m q.y) (a - c.y)
      = ps.foldl (fun m q => min m q.y) a - c.y := by
  induction ps generalizing a with
  | nil => rfl
  | cons q l ih =>
    simp only [List.map_cons, List.foldl_cons, Point.sub_def]
    rw [show min (a - c.y) (q.y - c.y) = min a q.y - c.y from min_sub_sub_right a q.y c.y]
    exact ih _

theorem foldl_maxx_shift (ps : List Point) (a : ℚ) (c : Point) :
    (ps.map (fun q => q - c)).foldl (fun m q => max m q.x) (a - c.x)
      = ps.foldl (fun m q => max m q.x) a - c.x := by
  induction ps generalizing a with
  | nil => rfl
  | cons q l ih =>
    simp only [List.map_cons, List.foldl_cons, Point.sub_def]
    rw [show max (a - c.x) (q.x - c.x) = max a q.x - c.x from max_sub_sub_right a q.x c.x]
    exact ih _

theorem foldl_maxy_shift (ps : List Point) (a : ℚ) (c : Point) :
    (ps.map (fun q => q - c)).foldl (fun m q => max m q.y) (a - c.y)
      = ps.foldl (fun m q => max m q.y) a - c.y := by
  induction ps generalizing a with
  | nil => rfl
  | cons q l ih =>
    simp only [List.map_cons, List.foldl_cons, Point.sub_def]
    rw [show max (a - c.y) (q.y - c.y) = max a q.y - c.y from max_sub_sub_right a q.y c.y]
    exact ih _

theorem cmdCoords_shift (c : Point) (cmd : PathCommand) :
    cmdCoords (shiftCmd c cmd) = (cmdCoords cmd).map (fun q => q - c) := by
  cases cmd <;> rfl

theorem coordPairs_shift (c : Point) (cmds : List PathCommand) :
    coordPairs (cmds.map (shiftCmd c)) = (coordPairs cmds).map (fun q => q - c) := by
  induction cmds with
  | nil => rfl
  | cons cmd rest ih =>
    simp only [List.map_cons, coordPairs, cmdCoords_shift, ih, List.map_append]

/-- Recentering shifts the bounding box: when the command list has at least
one coordinate pair, the bounding box of the shifted commands is the
original bounding box translated by `-c`. -/
theorem bboxOf_shift (cmds : List PathCommand) (c : Point) (p : Point)
    (ps : List Point) (h : coordPairs cmds = p :: ps) :
    bboxOf (cmds.map (shiftCmd c)) =
      ⟨(bboxOf cmds).minX - c.x, (bboxOf cmds).minY - c.y,
       (bboxOf cmds).maxX - c.x, (bboxOf cmds).maxY - c.y⟩ := by
  unfold bboxOf
  rw [coordPairs_shift, h]
  simp only [List.map_cons, BBox.mk.injEq]
  exact ⟨foldl_minx_shift ps p.x c, foldl_miny_shift ps p.y c,
         foldl_maxx_shift ps p.x c, foldl_maxy_shift ps p.y c⟩

/-- Recentering a command list around any point whose coordinates are its
bounding-box center leaves a command list whose bounding-box center is the
origin (also in the degenerate no-coordinate case, where the center is
already `(0,0)`). -/
theorem recentered_center_zero (cmds : List PathCommand) (c : Point)
    (hx : c.x = ((bboxOf cmds).minX + (bboxOf cmds).maxX) / 2)
    (hy : c.y = ((bboxOf cmds).minY + (bboxOf cmds).maxY) / 2) :
    ((bboxOf (cmds.map (shiftCmd c))).minX +
     (bboxOf (cmds.map (shiftCmd c))).maxX) / 2 = 0 ∧
    ((bboxOf (cmds.map (shiftCmd c))).minY +
     (bboxOf (cmds.map (shiftCmd c))).maxY) / 2 = 0 := by
  rcases hcp : coordPairs cmds with _ | ⟨p, ps⟩
  · have hz : bboxOf (cmds.map (shiftCmd c)) = ⟨0, 0, 0, 0⟩ := by
      unfold bboxOf
      rw [coordPairs_shift, hcp, List.map_nil]
    rw [hz]
    norm_num
  · simp only [bboxOf_shift cmds c p ps hcp]
    constructor
    · rw [hx]; ring
    · rw [hy]; ring

/-- Claim C8: on any input it accepts, the exporter returns as offset the
bounding-box center `(cx, cy) = ((minX+maxX)/2, (minY+maxY)/2)` of the
emitted commands, returns exactly those commands with `(cx, cy)`
subtracted from every coordinate pair (`ClosePath` unchanged — that is
what `shiftCmd` does), and the recentered commands have bounding-box
center `(0, 0)`. -/
theorem c8_theorem (t : PaperItemTree) (cmds : List PathCommand) (ox oy : ℚ)
    (h : paperPathToFabricPath t = some (cmds, ox, oy)) :
    ox = ((bboxOf (emitItems (collectItems t))).minX +
          (bboxOf (emitItems (collectItems t))).maxX) / 2 ∧
    oy = ((bboxOf (emitItems (collectItems t))).minY +
          (bboxOf (emitItems (collectItems t))).maxY) / 2 ∧
    cmds = (emitItems (collectItems t)).map (shiftCmd ⟨ox, oy⟩) ∧
    ((bboxOf cmds).minX + (bboxOf cmds).maxX) / 2 = 0 ∧
    ((bboxOf cmds).minY + (bboxOf cmds).maxY) / 2 = 0 := by
  simp only [paperPathToFabricPath] at h
  split_ifs at h with h1 h2
  simp only [Option.some.injEq, Prod.mk.injEq] at h
  obtain ⟨hc, hox, hoy⟩ := h
  subst hox
  subst hoy
  subst hc
  obtain ⟨hzx, hzy⟩ := recentered_center_zero (emitItems (collectItems t))
    ⟨((bboxOf (emitItems (collectItems t))).minX +
      (bboxOf (emitItems (collectItems t))).maxX) / 2,
     ((bboxOf (emitItems (collectItems t))).minY +
      (bboxOf (emitItems (collectItems t))).maxY) / 2⟩ rfl rfl
  exact ⟨rfl, rfl, rfl, hzx, hzy⟩

/-- A concrete single-path export input: an open two-anchor polyline from
`(0,0)` to `(4,2)`. -/
def treeW : PaperItemTree := .path ⟨[⟨⟨0,0⟩, 0, 0⟩, ⟨⟨4,2⟩, 0, 0⟩], false⟩

/-- Claim C8 (witness): the recentering theorem at the concrete polyline,
whose bounding box is `(0,0)-(4,2)`, center `(2,1)`. -/
theorem c8_witness :
    (2 : ℚ) = ((bboxOf (emitItems (collectItems treeW))).minX +
               (bboxOf (emitItems (collectItems treeW))).maxX) / 2 ∧
    (1 : ℚ) = ((bboxOf (emitItems (collectItems treeW))).minY +
               (bboxOf (emitItems (collectItems treeW))).maxY) / 2 ∧
    [(.M ⟨-2,-1⟩ : PathCommand), .L ⟨2,1⟩] =
      (emitItems (collectItems treeW)).map (shiftCmd ⟨2, 1⟩) ∧
    ((bboxOf [(.M ⟨-2,-1⟩ : PathCommand), .L ⟨2,1⟩]).minX +
     (bboxOf [(.M ⟨-2,-1⟩ : PathCommand), .L ⟨2,1⟩]).maxX) / 2 = 0 ∧
    ((bboxOf [(.M ⟨-2,-1⟩ : PathCommand), .L ⟨2,1⟩]).minY +
     (bboxOf [(.M ⟨-2,-1⟩ : PathCommand), .L ⟨2,1⟩]).maxY) / 2 = 0 :=
  c8_theorem treeW [.M ⟨-2,-1⟩, .L ⟨2,1⟩] 2 1 (by
    norm_num [paperPathToFabricPath, collectItems, pathChild, emitItems,
      emitItem, emitSegs, emitPair, bboxOf, coordPairs, cmdCoords, shiftCmd,
      treeW, min_def, max_def])

/-! ## Claim C2: import/export round trip for cubic-only paths -/

/-- Well-formedness of a cubic tail for the round-trip law: every command
is a `CubicTo` and no cubic is fully degenerate (for each one, `cp1`
differs from the previous anchor or `cp2` differs from its endpoint —
otherwise both adjoining handles are zero and the exporter flattens the
pair to a `LineTo`). -/
def cubicsOk : Point → List PathCommand → Prop
  | _, [] => True
  | p0, .C cp1 cp2 pt :: rest => (cp1 ≠ p0 ∨ cp2 ≠ pt) ∧ cubicsOk pt rest
  | _, .M _ :: _ => False
  | _, .L _ :: _ => False
  | _, .Q _ _ :: _ => False
  | _, .Z :: _ => False

/-- The segment list the importer builds from a pending last segment and a
list of cubic commands (identity transform): each cubic closes off the
pending segment with `handleOut = cp1 - point` and leaves a new pending
segment at its endpoint with `handleIn = cp2 - pt`. -/
def importCubicChain (pend : Segment) : List PathCommand → List Segment
  | [] => [pend]
  | .C cp1 cp2 pt :: rest =>
      { pend with handleOut := cp1 - pend.point } ::
        importCubicChain ⟨pt, cp2 - pt, 0⟩ rest
  | _ :: _ => []

/-- The pair loop started at the head of a segment list. -/
def emitFrom : List Segment → List PathCommand
  | [] => []
  | s :: rest => emitSegs s rest

theorem setLastHandleOut_concat (front : List Segment) (pend : Segment) (cp1 : Point) :
    setLastHandleOut (front ++ [pend]) cp1 =
      front ++ [{ pend with handleOut := cp1 - pend.point }] := by
  unfold setLastHandleOut
  rw [List.getLast?_concat, List.dropLast_concat]

/-- Folding the importer over an all-cubic command list appends exactly the
cubic chain of segments (identity transform). -/
theorem importCommands_cubics (obj : FabricObj) (hm : obj.matrix = Affine.identityM)
    (cs : List PathCommand) :
    ∀ (front : List Segment) (pend : Segment) (cl : Bool),
      cubicsOk pend.point cs →
      List.foldl (importStep obj) ⟨front ++ [pend], cl⟩ cs =
        ⟨front ++ importCubicChain pend cs, cl⟩ := by
  induction cs with
  | nil =>
    intro front pend cl _
    simp [importCubicChain]
  | cons cmd rest ih =>
    intro front pend cl hok
    cases cmd with
    | C cp1 cp2 pt =>
      have htp : ∀ q : Point, transformPointUsingCanvas obj q = q := fun q =>
        transformPointUsingCanvas_identityM obj hm q
      have hok' : (cp1 ≠ pend.point ∨ cp2 ≠ pt) ∧ cubicsOk pt rest := hok
      rw [List.foldl_cons]
      have hstep : importStep obj ⟨front ++ [pend], cl⟩ (.C cp1 cp2 pt) =
          ⟨(front ++ [{ pend with handleOut := cp1 - pend.point }]) ++
            [⟨pt, cp2 - pt, 0⟩], cl⟩ := by
        show attachCubic ⟨front ++ [pend], cl⟩ _ _ _ = _
        unfold attachCubic
        rw [htp, htp, htp]
        rw [show (⟨front ++ [pend], cl⟩ : PaperPath).segments = front ++ [pend] from rfl,
          setLastHandleOut_concat]
      rw [hstep]
      have hrec := ih (front ++ [{ pend with handleOut := cp1 - pend.point }])
        ⟨pt, cp2 - pt, 0⟩ cl hok'.2
      rw [hrec]
      simp [importCubicChain, List.append_assoc]
    | M p => exact absurd hok (by simp [cubicsOk])
    | L p => exact absurd hok (by simp [cubicsOk])
    | Q a b => exact absurd hok (by simp [cubicsOk])
    | Z => exact absurd hok (by simp [cubicsOk])

/-- The head of a cubic chain keeps the pending segment's point and
`handleIn`; only its `handleOut` may change. -/
theorem importCubicChain_head (pend : Segment) (cs : List PathCommand)
    (h : cubicsOk pend.point cs) :
    ∃ ho rest1, importCubicChain pend cs = ⟨pend.point, pend.handleIn, ho⟩ :: rest1 := by
  cases cs with
  | nil => exact ⟨pend.handleOut, [], rfl⟩
  | cons cmd rest =>
    cases cmd with
    | C cp1 cp2 pt =>
      exact ⟨cp1 - pend.point, importCubicChain ⟨pt, cp2 - pt, 0⟩ rest, rfl⟩
    | M p => exact absurd h (by simp [cubicsOk])
    | L p => exact absurd h (by simp [cubicsOk])
    | Q a b => exact absurd h (by simp [cubicsOk])
    | Z => exact absurd h (by simp [cubicsOk])

/-- Emitting the pair loop over a cubic chain reproduces the cubic
commands exactly, provided no cubic is fully degenerate. -/
theorem emitFrom_chain (cs : List PathCommand) :
    ∀ pend : Segment, pend.handleOut = 0 → cubicsOk pend.point cs →
      emitFrom (importCubicChain pend cs) = cs := by
  induction cs with
  | nil =>
    intro pend h0 _
    simp [importCubicChain, emitFrom, emitSegs]
  | cons cmd rest ih =>
    intro pend h0 hok
    cases cmd with
    | C cp1 cp2 pt =>
      have hok' : (cp1 ≠ pend.point ∨ cp2 ≠ pt) ∧ cubicsOk pt rest := hok
      obtain ⟨ho, rest1, hchain⟩ :=
        importCubicChain_head ⟨pt, cp2 - pt, 0⟩ rest hok'.2
      have htail := ih ⟨pt, cp2 - pt, 0⟩ rfl hok'.2
      rw [hchain] at htail
      simp only [emitFrom] at htail
      have hhead : emitPair { pend with handleOut := cp1 - pend.point }
          ⟨pt, cp2 - pt, ho⟩ = .C cp1 cp2 pt := by
        unfold emitPair
        rw [if_pos]
        · rw [show ({ pend with handleOut := cp1 - pend.point } : Segment).point +
              ({ pend with handleOut := cp1 - pend.point } : Segment).handleOut =
              pend.point + (cp1 - pend.point) from rfl,
            Point.add_sub_cancel,
            show (⟨pt, cp2 - pt, ho⟩ : Segment).point + (⟨pt, cp2 - pt, ho⟩ : Segment).handleIn =
              pt + (cp2 - pt) from rfl,
            Point.add_sub_cancel]
        · rcases hok'.1 with hnd | hnd
          · exact Or.inl (fun hz => hnd ((Point.sub_eq_zero_iff cp1 pend.point).mp hz))
          · exact Or.inr (fun hz => hnd ((Point.sub_eq_zero_iff cp2 pt).mp hz))
      simp only [importCubicChain, hchain, emitFrom, emitSegs]
      rw [hhead, htail]
    | M p => exact absurd hok (by simp [cubicsOk])
    | L p => exact absurd hok (by simp [cubicsOk])
    | Q a b => exact absurd hok (by simp [cubicsOk])
    | Z => exact absurd hok (by simp [cubicsOk])

/-- Claim C2 (amended): for a path `MoveTo` followed by `CubicTo` commands
under the identity object transform, importing and then re-emitting the
engine curve reproduces the original commands — anchor points and cubic
control points exactly — provided no cubic is fully degenerate (`cp1`
equal to the previous anchor and `cp2` equal to the endpoint at once); a
fully degenerate cubic leaves both adjoining handles zero and is
re-emitted as the geometrically equal `LineTo` instead. -/
theorem c2_theorem (obj : FabricObj) (p0 : Point) (cs : List PathCommand)
    (hm : obj.matrix = Affine.identityM)
    (hp : obj.path = some (.M p0 :: cs))
    (hok : cubicsOk p0 cs) :
    (fabricPathToPaperPath obj).map emitItem = some (.M p0 :: cs) := by
  have htp : ∀ q : Point, transformPointUsingCanvas obj q = q := fun q =>
    transformPointUsingCanvas_identityM obj hm q
  have h1 : importCommands obj (.M p0 :: cs) = ⟨importCubicChain ⟨p0, 0, 0⟩ cs, false⟩ := by
    unfold importCommands
    rw [List.foldl_cons]
    have hstep : importStep obj ⟨[], false⟩ (.M p0) = ⟨[] ++ [⟨p0, 0, 0⟩], false⟩ := by
      simp [importStep, htp]
    rw [hstep, importCommands_cubics obj hm cs [] ⟨p0, 0, 0⟩ false hok]
    rw [List.nil_append]
  obtain ⟨ho, rest1, hchain⟩ := importCubicChain_head ⟨p0, 0, 0⟩ cs hok
  have h3 := emitFrom_chain cs ⟨p0, 0, 0⟩ rfl hok
  rw [hchain] at h3
  simp only [emitFrom] at h3
  have h2 : emitItem ⟨importCubicChain ⟨p0, 0, 0⟩ cs, false⟩ = .M p0 :: cs := by
    simp only [emitItem, hchain, h3]
    simp
  simp only [fabricPathToPaperPath, hp, flattenCleanup, Option.map_some']
  rw [h1, h2]

/-- Claim C2 (counterexample): the fully degenerate cubic
`C (0,0) (1,1) (1,1)` after `M (0,0)` (its `cp1` is the start anchor and
its `cp2` the endpoint, so both stored handles are zero) round-trips to
`L (1,1)` — the original `CubicTo` command is not reproduced, so the law
fails without the nondegeneracy proviso. -/
theorem c2_counterexample :
    (fabricPathToPaperPath (mkPathObj [.M ⟨0,0⟩, .C ⟨0,0⟩ ⟨1,1⟩ ⟨1,1⟩])).map emitItem
      = some [.M ⟨0,0⟩, .L ⟨1,1⟩] ∧
    ([(.M ⟨0,0⟩ : PathCommand), .L ⟨1,1⟩] : List PathCommand) ≠
      [.M ⟨0,0⟩, .C ⟨0,0⟩ ⟨1,1⟩ ⟨1,1⟩] := by
  constructor
  · have himp : fabricPathToPaperPath (mkPathObj [.M ⟨0,0⟩, .C ⟨0,0⟩ ⟨1,1⟩ ⟨1,1⟩]) =
        some ⟨[⟨⟨0,0⟩, 0, 0⟩, ⟨⟨1,1⟩, 0, 0⟩], false⟩ := by
      simp [fabricPathToPaperPath, flattenCleanup, importCommands, importStep,
        mkPathObj, transformPointUsingCanvas, applyAffine, Affine.identityM,
        attachCubic, setLastHandleOut]
    rw [himp, Option.map_some']
    simp [emitItem, emitSegs, emitPair]
  · simp

/-- Claim C2 (witness): the round-trip theorem at the nondegenerate cubic
path `M (0,0); C (1,0) (2,1) (3,3)`. -/
theorem c2_witness :
    (fabricPathToPaperPath (mkPathObj [.M ⟨0,0⟩, .C ⟨1,0⟩ ⟨2,1⟩ ⟨3,3⟩])).map emitItem
      = some [.M ⟨0,0⟩, .C ⟨1,0⟩ ⟨2,1⟩ ⟨3,3⟩] :=
  c2_theorem (mkPathObj [.M ⟨0,0⟩, .C ⟨1,0⟩ ⟨2,1⟩ ⟨3,3⟩]) ⟨0,0⟩
    [.C ⟨1,0⟩ ⟨2,1⟩ ⟨3,3⟩] rfl rfl
    ⟨Or.inl (by norm_num [Point.mk.injEq]), trivial⟩
